import Mathlib

/-!
Verification of the metrics acquisition & normalization layer of the
System-Info-Dashboard application (source: `src/main.ts`).

The JavaScript string and number operations are shallowly embedded:
strings are processed as `List Char` (the JS functions `split`, `trim`,
`includes`, `replace` are modelled by structural recursions below), JS
numbers arising in this code are exact integers or decimal fractions, so
they are modelled by `Int` / `ℚ`, with `Option` marking the non-finite
results (`NaN`) produced by failed parses and zero divisors.
-/

set_option maxRecDepth 8000

/-- Whitespace test used by JS `trim` and the `\s` regex class
(space, tab, newline, carriage return and friends). -/
def isWs (c : Char) : Bool := c.isWhitespace

/-- Models JS `str.split(sep)` for a single-character separator
(used by the source as `output.split('\n')`).  Every occurrence of the
separator produces a boundary; empty segments are kept, as in JS. -/
def splitChar (sep : Char) : List Char → List (List Char)
  | [] => [[]]
  | c :: cs =>
    let r := splitChar sep cs
    if c = sep then [] :: r
    else
      match r with
      | [] => [[c]]
      | h :: t => (c :: h) :: t

/-- Splits a character list at every character satisfying `p`, keeping
empty segments (helper for the `/\s+/` split). -/
def splitPred (p : Char → Bool) : List Char → List (List Char)
  | [] => [[]]
  | c :: cs =>
    let r := splitPred p cs
    if p c then [] :: r
    else
      match r with
      | [] => [[c]]
      | h :: t => (c :: h) :: t

/-- Models JS `str.split(/\s+/)` as the source applies it: the source
always calls it on a trimmed, non-blank string, where splitting on
whitespace runs equals splitting on single whitespace characters and
discarding the empty segments. -/
def splitWs (cs : List Char) : List (List Char) :=
  (splitPred isWs cs).filter (fun t => !t.isEmpty)

/-- Models JS `str.trim()`: leading and trailing whitespace removed. -/
def trimChars (cs : List Char) : List Char :=
  ((cs.dropWhile isWs).reverse.dropWhile isWs).reverse

/-- Models JS `str.includes(pat)`. -/
def containsSeq (pat : List Char) : List Char → Bool
  | [] => pat.isEmpty
  | c :: cs => pat.isPrefixOf (c :: cs) || containsSeq pat cs

/-- Worker for `splitOnSeq`, recursing on fuel (one unit per consumed
character) so that it is structurally recursive.  `cur` holds the
current segment in reverse. -/
def splitOnSeqGo (sep : List Char) : Nat → List Char → List Char → List (List Char)
  | _, [], cur => [cur.reverse]
  | 0, cs, cur => [cur.reverse ++ cs]
  | fuel + 1, c :: cs, cur =>
    if sep.isPrefixOf (c :: cs) && !sep.isEmpty then
      cur.reverse :: splitOnSeqGo sep fuel ((c :: cs).drop sep.length) []
    else
      splitOnSeqGo sep fuel cs (c :: cur)

/-- Models JS `str.split(sep)` for a non-empty multi-character separator
(used by the source as `line.split('","')`): non-overlapping matches are
found left to right. -/
def splitOnSeq (sep cs : List Char) : List (List Char) :=
  splitOnSeqGo sep (cs.length + 1) cs []

/-- Numeric value of a decimal digit character. -/
def digitVal (c : Char) : Nat := c.toNat - '0'.toNat

/-- Value of a run of decimal digit characters. -/
def digitsToNat (ds : List Char) : Nat :=
  ds.foldl (fun n c => n * 10 + digitVal c) 0

/-- Splits an optional leading `+`/`-` sign from a character list,
returning the sign as `1` or `-1`. -/
def splitSign : List Char → Int × List Char
  | '+' :: r => (1, r)
  | '-' :: r => (-1, r)
  | r => (1, r)

/-- Models JS `parseInt(s)` (radix 10): skip leading whitespace, read an
optional sign and then a maximal run of decimal digits; `none` models the
`NaN` result when no digit is found.  The hexadecimal `0x` prefix form
does not occur in this program's inputs and is not modelled. -/
def parseIntJs (cs : List Char) : Option Int :=
  let t := cs.dropWhile isWs
  let sr := splitSign t
  let ds := sr.2.takeWhile Char.isDigit
  if ds.isEmpty then none else some (sr.1 * (digitsToNat ds : Int))

/-- Models JS `parseFloat(s)` on decimal literals: optional sign, integer
digits, optional fraction and optional exponent; `none` models `NaN`.
The value is assembled with `mkRat`, which is exact for the decimal
strings this program parses. -/
def parseFloatJs (cs : List Char) : Option ℚ :=
  let t := cs.dropWhile isWs
  let sr := splitSign t
  let ip := sr.2.takeWhile Char.isDigit
  let r2 := sr.2.dropWhile Char.isDigit
  let fpr3 : List Char × List Char :=
    match r2 with
    | '.' :: r => (r.takeWhile Char.isDigit, r.dropWhile Char.isDigit)
    | _ => ([], r2)
  let fp := fpr3.1
  if ip.isEmpty && fp.isEmpty then none
  else
    let mantNum : Int := sr.1 * ((digitsToNat ip * 10 ^ fp.length + digitsToNat fp : Nat) : Int)
    let mantDen : Nat := 10 ^ fp.length
    let e : Int :=
      match fpr3.2 with
      | 'e' :: r =>
        let esr := splitSign r
        let eds := esr.2.takeWhile Char.isDigit
        if eds.isEmpty then 0 else esr.1 * (digitsToNat eds : Int)
      | 'E' :: r =>
        let esr := splitSign r
        let eds := esr.2.takeWhile Char.isDigit
        if eds.isEmpty then 0 else esr.1 * (digitsToNat eds : Int)
      | _ => 0
    some (if 0 ≤ e then mkRat (mantNum * 10 ^ e.toNat) mantDen
          else mkRat mantNum (mantDen * 10 ^ (-e).toNat))

/-- Models the JS idiom `parseInt(x) || 0`: the falsy values `NaN`
(modelled by `none`) and `0` are both sent to `0`. -/
def jsOrZeroI (o : Option Int) : Int :=
  match o with
  | none => 0
  | some v => v

/-- Models the JS idiom `parseFloat(x) || 0`. -/
def jsOrZeroQ (o : Option ℚ) : ℚ :=
  match o with
  | none => 0
  | some v => v

/-- Models the JS idiom `x || d` for a possibly-undefined string `x`:
`undefined` (`none`) and the empty string are falsy. -/
def jsOrStr (o : Option (List Char)) (d : List Char) : List Char :=
  match o with
  | none => d
  | some s => if s.isEmpty then d else s

/-- Record produced per line by the `get-processes` handler on win32
(`{name, pid, memory, cpu}` in the source). -/
structure ProcessRecordWin where
  name : String
  pid : Int
  memory : String
  cpu : String
deriving DecidableEq, Repr

/-- Per-line mapping of the win32 `get-processes` parser: split on the
CSV `","` delimiter, strip all `"` characters, and read the fixed
columns (image name, pid, memory), with `cpu` set to the literal
string the source uses for the unavailable CPU column. -/
def winLine (line : List Char) : ProcessRecordWin :=
  let parts := (splitOnSeq ("\",\"".toList) line).map (fun part => part.filter (fun c => c ≠ '"'))
  { name := String.mk (jsOrStr parts[0]? [])
    pid := jsOrZeroI (parts[1]?.bind parseIntJs)
    memory := String.mk (jsOrStr parts[4]? ("0 K".toList))
    cpu := "N/A" }

/-- Line filter of the win32 `get-processes` parser: keep lines that are
non-blank and do not contain the `"Image Name"` header marker. -/
def winKeepLine (line : List Char) : Bool :=
  !(trimChars line).isEmpty && !containsSeq ("\"Image Name\"".toList) line

/-- The win32 `get-processes` records in input line order, before the
pid filter and truncation. -/
def winRawRecords (output : String) : List ProcessRecordWin :=
  ((splitChar '\n' output.toList).filter winKeepLine).map winLine

/-- The win32 `get-processes` parse function: keep records with positive
pid and truncate to the first 50.  No sort is applied on this branch. -/
def parseProcessesWin (output : String) : List ProcessRecordWin :=
  ((winRawRecords output).filter (fun p => 0 < p.pid)).take 50

/-- Record produced per line by the `get-processes` handler on POSIX
(`{name, pid, cpu, memory, vsz, rss, tty, stat, start, time}` in the
source). -/
structure ProcessRecordPosix where
  name : String
  pid : Int
  cpu : ℚ
  memory : ℚ
  vsz : Int
  rss : Int
  tty : String
  stat : String
  start : String
  time : String
deriving DecidableEq, Repr

/-- Per-line mapping of the POSIX `get-processes` parser: trim, split on
whitespace runs, and read the conventional `ps aux` columns by index,
with the command name falling back from field 10 to field 0. -/
def posixLine (line : List Char) : ProcessRecordPosix :=
  let parts := splitWs (trimChars line)
  { name := String.mk (jsOrStr parts[10]? (jsOrStr parts[0]? []))
    pid := jsOrZeroI (parts[1]?.bind parseIntJs)
    cpu := jsOrZeroQ (parts[2]?.bind parseFloatJs)
    memory := jsOrZeroQ (parts[3]?.bind parseFloatJs)
    vsz := jsOrZeroI (parts[4]?.bind parseIntJs)
    rss := jsOrZeroI (parts[5]?.bind parseIntJs)
    tty := String.mk (jsOrStr parts[6]? [])
    stat := String.mk (jsOrStr parts[7]? [])
    start := String.mk (jsOrStr parts[8]? [])
    time := String.mk (jsOrStr parts[9]? []) }

/-- Sort relation induced by the source comparator `(a, b) => b.cpu - a.cpu`:
`a` sorts no later than `b` exactly when the comparator is `≤ 0`, that is,
when `b.cpu ≤ a.cpu` (descending cpu). -/
def cpuDescLe (a b : ProcessRecordPosix) : Bool := b.cpu ≤ a.cpu

/-- The POSIX `get-processes` records in input line order, after the
blank-line filter, per-line mapping and positive-pid filter, before the
sort and truncation. -/
def posixRecords (output : String) : List ProcessRecordPosix :=
  (((splitChar '\n' output.toList).filter (fun line => !(trimChars line).isEmpty)).map
      posixLine).filter (fun p => 0 < p.pid)

/-- The POSIX `get-processes` parse function: stable sort by descending
cpu (JS `Array.prototype.sort` is stable, modelled by `List.mergeSort`)
and truncation to the first 50. -/
def parseProcessesPosix (output : String) : List ProcessRecordPosix :=
  ((posixRecords output).mergeSort cpuDescLe).take 50

/-- Record produced per line by the `get-disk-usage` handler on win32. -/
structure DiskRecordWin where
  filesystem : String
  size : Int
  used : Int
  available : Int
  usePercent : ℚ
  mounted : String
deriving DecidableEq, Repr

/-- Per-line mapping of the win32 `get-disk-usage` parser: trim, split on
whitespace runs into `caption`, `freeSpace`, `size` (free space precedes
size in the `wmic` column order), then derive used space and the use
percentage, guarding the division by `size > 0`. -/
def diskWinLine (line : List Char) : DiskRecordWin :=
  let parts := splitWs (trimChars line)
  let caption := parts[0]?.getD []
  let freeSpace : Int := jsOrZeroI (parts[1]?.bind parseIntJs)
  let size : Int := jsOrZeroI (parts[2]?.bind parseIntJs)
  let usedSpace : Int := size - freeSpace
  { filesystem := String.mk caption
    size := size
    used := usedSpace
    available := freeSpace
    usePercent := if 0 < size then ((usedSpace : ℚ) / (size : ℚ)) * 100 else 0
    mounted := String.mk caption }

/-- The win32 `get-disk-usage` parse function: drop blank lines and the
`Caption` header line, map the rest. -/
def parseDiskWin (output : String) : List DiskRecordWin :=
  ((splitChar '\n' output.toList).filter
      (fun line => !(trimChars line).isEmpty && !containsSeq ("Caption".toList) line)).map
    diskWinLine

/-- Record produced per line by the `get-disk-usage` handler on POSIX. -/
structure DiskRecordPosix where
  filesystem : String
  size : String
  used : String
  available : String
  usePercent : Int
  mounted : String
deriving DecidableEq, Repr

/-- Removes the first occurrence of a character, modelling JS
`str.replace('%', '')` with a string pattern (first occurrence only). -/
def removeFirst (c : Char) : List Char → List Char
  | [] => []
  | x :: xs => if x = c then xs else x :: removeFirst c xs

/-- Per-line mapping of the POSIX `get-disk-usage` parser: trim, split on
whitespace runs into the six `df` columns; the use percentage has its
`%` stripped and is parsed as an integer, defaulting to 0. -/
def diskPosixLine (line : List Char) : DiskRecordPosix :=
  let parts := splitWs (trimChars line)
  { filesystem := String.mk (jsOrStr parts[0]? [])
    size := String.mk (jsOrStr parts[1]? [])
    used := String.mk (jsOrStr parts[2]? [])
    available := String.mk (jsOrStr parts[3]? [])
    usePercent := jsOrZeroI ((parts[4]?.map (removeFirst '%')).bind parseIntJs)
    mounted := String.mk (jsOrStr parts[5]? []) }

/-- The POSIX `get-disk-usage` parse function: drop blank lines and the
`Filesystem` header line, map the rest. -/
def parseDiskPosix (output : String) : List DiskRecordPosix :=
  ((splitChar '\n' output.toList).filter
      (fun line => !(trimChars line).isEmpty && !containsSeq ("Filesystem".toList) line)).map
    diskPosixLine

/-- Result of running the external command: captured standard output on
success, or the failure caught by the handler's `catch` (spawn failure
or non-zero exit), carrying its message. -/
def CmdResult : Type := Except String String

/-- The `get-processes` handler on win32: on command failure the catch
block returns the empty list. -/
def getProcessesWin (res : CmdResult) : List ProcessRecordWin :=
  match res with
  | .error _ => []
  | .ok out => parseProcessesWin out

/-- The `get-processes` handler on POSIX: on command failure the catch
block returns the empty list. -/
def getProcessesPosix (res : CmdResult) : List ProcessRecordPosix :=
  match res with
  | .error _ => []
  | .ok out => parseProcessesPosix out

/-- The `get-disk-usage` handler on win32: on command failure the catch
block returns the empty list. -/
def getDiskUsageWin (res : CmdResult) : List DiskRecordWin :=
  match res with
  | .error _ => []
  | .ok out => parseDiskWin out

/-- The `get-disk-usage` handler on POSIX: on command failure the catch
block returns the empty list. -/
def getDiskUsagePosix (res : CmdResult) : List DiskRecordPosix :=
  match res with
  | .error _ => []
  | .ok out => parseDiskPosix out

/-- Per-core tick counters as exposed by `os.cpus().times`: cumulative
non-negative integers. -/
structure CpuTimes where
  user : ℕ
  nice : ℕ
  sys : ℕ
  idle : ℕ
  irq : ℕ
deriving DecidableEq, Repr

/-- Sum of idle ticks across cores (`cpus.reduce((acc, cpu) => acc +
cpu.times.idle, 0)` in the source). -/
def totalIdle (cpus : List CpuTimes) : ℕ :=
  cpus.foldl (fun acc c => acc + c.idle) 0

/-- Sum of all ticks across cores (`acc + user + nice + sys + idle + irq`
in the source). -/
def totalTick (cpus : List CpuTimes) : ℕ :=
  cpus.foldl (fun acc c => acc + c.user + c.nice + c.sys + c.idle + c.irq) 0

/-- JS floating-point division, with `none` standing for the non-finite
result (`NaN` here, since the numerator is also zero whenever the
denominator is) produced when the divisor is zero. -/
def jsDiv (x y : ℚ) : Option ℚ :=
  if y = 0 then none else some (x / y)

/-- The cpu usage percentage computed by the `get-cpu-usage` handler:
`((totalTick - totalIdle) / totalTick) * 100`, with no guard on
`totalTick = 0`. -/
def cpuUsage (cpus : List CpuTimes) : Option ℚ :=
  (jsDiv ((totalTick cpus : ℚ) - (totalIdle cpus : ℚ)) (totalTick cpus : ℚ)).map
    (fun q => q * 100)

/-- Full payload of the `get-cpu-usage` handler: usage percentage, core
count and the three load averages read directly from the host. -/
structure CpuUsageResult where
  usage : Option ℚ
  cores : ℕ
  loadAvg : ℚ × ℚ × ℚ
deriving DecidableEq, Repr

/-- The `get-cpu-usage` handler, parameterised by the host snapshot. -/
def getCpuUsage (cpus : List CpuTimes) (loadAvg : ℚ × ℚ × ℚ) : CpuUsageResult :=
  { usage := cpuUsage cpus, cores := cpus.length, loadAvg := loadAvg }

/-- Truncation toward zero on ℚ, as performed by the JS `%` operator
when forming the quotient. -/
def ratTrunc (q : ℚ) : ℤ :=
  if 0 ≤ q then ⌊q⌋ else ⌈q⌉

/-- The JS remainder `a % b` for a finite nonzero divisor: it takes the
sign of the dividend, via truncated division. -/
def jsMod (a b : ℚ) : ℚ :=
  a - b * (ratTrunc (a / b) : ℚ)

/-- The `formatUptime` function of the source: days, hours and minutes
extracted with `Math.floor` and `%`, rendered as in the three template
literals. -/
def formatUptime (seconds : ℚ) : String :=
  let days : ℤ := ⌊seconds / 86400⌋
  let hours : ℤ := ⌊jsMod seconds 86400 / 3600⌋
  let minutes : ℤ := ⌊jsMod seconds 3600 / 60⌋
  if days > 0 then toString days ++ "d " ++ toString hours ++ "h " ++ toString minutes ++ "m"
  else if hours > 0 then toString hours ++ "h " ++ toString minutes ++ "m"
  else toString minutes ++ "m"

/-- The uptime formatter as the specification words it: `days =
floor(seconds/86400)`, `hours = floor((seconds mod 86400)/3600)`,
`minutes = floor((seconds mod 3600)/60)` with the mathematical
remainder `x mod m = x - m * floor(x/m)`, and the same three formats. -/
def uptimeSpecFormat (seconds : ℚ) : String :=
  let days : ℤ := ⌊seconds / 86400⌋
  let hours : ℤ := ⌊(seconds - 86400 * (⌊seconds / 86400⌋ : ℚ)) / 3600⌋
  let minutes : ℤ := ⌊(seconds - 3600 * (⌊seconds / 3600⌋ : ℚ)) / 60⌋
  if days > 0 then toString days ++ "d " ++ toString hours ++ "h " ++ toString minutes ++ "m"
  else if hours > 0 then toString hours ++ "h " ++ toString minutes ++ "m"
  else toString minutes ++ "m"

lemma totalIdle_foldl_le (l : List CpuTimes) :
    ∀ n m : ℕ, n ≤ m →
      List.foldl (fun acc c => acc + c.idle) n l ≤
        List.foldl (fun acc c => acc + c.user + c.nice + c.sys + c.idle + c.irq) m l := by
  induction l with
  | nil => intro n m h; simpa using h
  | cons c t ih =>
    intro n m h
    simp only [List.foldl_cons]
    exact ih _ _ (by omega)

lemma totalIdle_le_totalTick (l : List CpuTimes) : totalIdle l ≤ totalTick l :=
  totalIdle_foldl_le l 0 0 le_rfl

lemma totalIdle_foldl_all_idle (l : List CpuTimes)
    (h : ∀ c ∈ l, c.user + c.nice + c.sys + c.irq = 0) :
    ∀ n : ℕ,
      List.foldl (fun acc c => acc + c.idle) n l =
        List.foldl (fun acc c => acc + c.user + c.nice + c.sys + c.idle + c.irq) n l := by
  induction l with
  | nil => intro n; rfl
  | cons c t ih =>
    intro n
    have hc := h c (List.mem_cons_self c t)
    have ht := ih (fun d hd => h d (List.mem_cons_of_mem c hd))
    simp only [List.foldl_cons]
    rw [show n + c.idle = n + c.user + c.nice + c.sys + c.idle + c.irq by omega]
    exact ht _

lemma totalIdle_foldl_zero (l : List CpuTimes) (h : ∀ c ∈ l, c.idle = 0) :
    ∀ n : ℕ, List.foldl (fun acc c => acc + c.idle) n l = n := by
  induction l with
  | nil => intro n; rfl
  | cons c t ih =>
    intro n
    have hc := h c (List.mem_cons_self c t)
    have ht := ih (fun d hd => h d (List.mem_cons_of_mem c hd))
    simp only [List.foldl_cons, hc, Nat.add_zero]
    exact ht n

/-- C2: for every snapshot of per-core tick counters (which are natural
numbers, hence non-negative), if `totalTick > 0` then the computed
percentage equals `(totalTick - totalIdle) / totalTick * 100`, lies in
`[0, 100]`, and in particular an all-idle snapshot (every core's
non-idle counters zero, so `idle` equals its total) yields 0 and a
snapshot with all `idle = 0` yields 100. -/
theorem cpuUsage_formula_bounds (cpus : List CpuTimes) (h : 0 < totalTick cpus) :
    cpuUsage cpus =
      some ((((totalTick cpus : ℚ) - (totalIdle cpus : ℚ)) / (totalTick cpus : ℚ)) * 100) ∧
    0 ≤ (((totalTick cpus : ℚ) - (totalIdle cpus : ℚ)) / (totalTick cpus : ℚ)) * 100 ∧
    (((totalTick cpus : ℚ) - (totalIdle cpus : ℚ)) / (totalTick cpus : ℚ)) * 100 ≤ 100 ∧
    ((∀ c ∈ cpus, c.user + c.nice + c.sys + c.irq = 0) → cpuUsage cpus = some 0) ∧
    ((∀ c ∈ cpus, c.idle = 0) → cpuUsage cpus = some 100) := by
  have htq : (0 : ℚ) < (totalTick cpus : ℚ) := by exact_mod_cast h
  have htne : (totalTick cpus : ℚ) ≠ 0 := ne_of_gt htq
  have hle : (totalIdle cpus : ℚ) ≤ (totalTick cpus : ℚ) := by
    exact_mod_cast totalIdle_le_totalTick cpus
  have hval : cpuUsage cpus =
      some ((((totalTick cpus : ℚ) - (totalIdle cpus : ℚ)) / (totalTick cpus : ℚ)) * 100) := by
    simp [cpuUsage, jsDiv, htne]
  refine ⟨hval, ?_, ?_, ?_, ?_⟩
  · exact mul_nonneg (div_nonneg (by linarith) htq.le) (by norm_num)
  · have h1 : ((totalTick cpus : ℚ) - (totalIdle cpus : ℚ)) / (totalTick cpus : ℚ) ≤ 1 :=
      (div_le_one htq).mpr (by linarith)
    calc (((totalTick cpus : ℚ) - (totalIdle cpus : ℚ)) / (totalTick cpus : ℚ)) * 100 ≤ 1 * 100 :=
          mul_le_mul_of_nonneg_right h1 (by norm_num)
      _ = 100 := one_mul 100
  · intro hall
    have heq : totalIdle cpus = totalTick cpus := totalIdle_foldl_all_idle cpus hall 0
    rw [hval, heq]
    norm_num
  · intro hzero
    have heq : totalIdle cpus = 0 := totalIdle_foldl_zero cpus hzero 0
    rw [hval, heq]
    rw [show ((0 : ℕ) : ℚ) = 0 by norm_num, sub_zero, div_self htne, one_mul]

theorem cpuUsage_formula_bounds_witness :
    cpuUsage [{ user := 0, nice := 0, sys := 0, idle := 5, irq := 0 }] = some 0 := by
  have h := cpuUsage_formula_bounds [{ user := 0, nice := 0, sys := 0, idle := 5, irq := 0 }]
    (by decide)
  exact h.2.2.2.1 (by decide)

/-- C10: the cpu usage computation divides by `totalTick` with no guard
against `totalTick = 0`: on the empty core snapshot and on an all-zero
snapshot the divisor is 0 and the returned usage is the non-finite
value `NaN` (modelled by `none`) rather than 0 or an error; in general
every snapshot with zero total ticks produces it. -/
theorem cpuUsage_zero_ticks_nan :
    totalTick [] = 0 ∧ cpuUsage [] = none ∧
    totalTick [{ user := 0, nice := 0, sys := 0, idle := 0, irq := 0 }] = 0 ∧
    cpuUsage [{ user := 0, nice := 0, sys := 0, idle := 0, irq := 0 }] = none ∧
    ∀ cpus : List CpuTimes, totalTick cpus = 0 → cpuUsage cpus = none := by
  refine ⟨by decide, by decide, by decide, by decide, ?_⟩
  intro cpus h
  simp [cpuUsage, jsDiv, h]

theorem cpuUsage_zero_ticks_nan_witness : cpuUsage [] = none :=
  cpuUsage_zero_ticks_nan.2.2.2.2 [] (by decide)

lemma jsMod_of_nonneg (a b : ℚ) (ha : 0 ≤ a) (hb : 0 ≤ b) :
    jsMod a b = a - b * (⌊a / b⌋ : ℚ) := by
  unfold jsMod ratTrunc
  rw [if_pos (div_nonneg ha hb)]

/-- C9: for every non-negative number of seconds, `formatUptime` agrees
with the specification formula (`days = floor(seconds/86400)`, `hours =
floor((seconds mod 86400)/3600)`, `minutes = floor((seconds mod 3600)/60)`,
rendered as `"{days}d {hours}h {minutes}m"` when `days > 0`, else
`"{hours}h {minutes}m"` when `hours > 0`, else `"{minutes}m"`), and in
particular maps 0 to `"0m"`, 3661 to `"1h 1m"` and 90061 to `"1d 1h 1m"`. -/
theorem formatUptime_spec (s : ℚ) (h : 0 ≤ s) :
    formatUptime s = uptimeSpecFormat s ∧
    formatUptime 0 = "0m" ∧ formatUptime 3661 = "1h 1m" ∧ formatUptime 90061 = "1d 1h 1m" := by
  refine ⟨?_, ?_, ?_, ?_⟩
  · simp only [formatUptime, uptimeSpecFormat,
      jsMod_of_nonneg s 86400 h (by norm_num), jsMod_of_nonneg s 3600 h (by norm_num)]
  · simp only [formatUptime, jsMod, ratTrunc]
    norm_num
    decide
  · simp only [formatUptime, jsMod, ratTrunc]
    norm_num
    decide
  · simp only [formatUptime, jsMod, ratTrunc]
    norm_num
    decide

theorem formatUptime_spec_witness :
    formatUptime 3661 = "1h 1m" ∧ formatUptime 3661 = uptimeSpecFormat 3661 := by
  have h := formatUptime_spec 3661 (by decide)
  exact ⟨h.2.2.1, h.1⟩

lemma cpuDescLe_trans (a b c : ProcessRecordPosix)
    (h1 : cpuDescLe a b = true) (h2 : cpuDescLe b c = true) : cpuDescLe a c = true := by
  simp only [cpuDescLe, decide_eq_true_eq] at *
  exact le_trans h2 h1

lemma cpuDescLe_total (a b : ProcessRecordPosix) : (cpuDescLe a b || cpuDescLe b a) = true := by
  simp only [cpuDescLe, Bool.or_eq_true, decide_eq_true_eq]
  exact le_total b.cpu a.cpu

lemma mergeSort_filter_cpu (l : List ProcessRecordPosix) (q : ℚ) :
    (l.mergeSort cpuDescLe).filter (fun r => decide (r.cpu = q)) =
      l.filter (fun r => decide (r.cpu = q)) := by
  have hmem : ∀ r ∈ l.filter (fun r => decide (r.cpu = q)), r.cpu = q := by
    intro r hr
    have h1 := List.of_mem_filter hr
    simp only [decide_eq_true_eq] at h1
    exact h1
  have hpair : (l.filter (fun r => decide (r.cpu = q))).Pairwise
      (fun a b => cpuDescLe a b = true) := by
    apply List.pairwise_of_forall_mem_list
    intro a ha b hb
    simp only [cpuDescLe, decide_eq_true_eq]
    rw [hmem a ha, hmem b hb]
  have hsub : List.Sublist (l.filter (fun r => decide (r.cpu = q))) (l.mergeSort cpuDescLe) :=
    List.sublist_mergeSort cpuDescLe_trans cpuDescLe_total hpair (List.filter_sublist l)
  have hself : (l.filter (fun r => decide (r.cpu = q))).filter (fun r => decide (r.cpu = q)) =
      l.filter (fun r => decide (r.cpu = q)) := by
    apply List.filter_eq_self.mpr
    intro a ha
    simp only [decide_eq_true_eq]
    exact hmem a ha
  have h2 : List.Sublist (l.filter (fun r => decide (r.cpu = q)))
      ((l.mergeSort cpuDescLe).filter (fun r => decide (r.cpu = q))) := by
    have h := hsub.filter (fun r => decide (r.cpu = q))
    rwa [hself] at h
  have h3 : List.Perm ((l.mergeSort cpuDescLe).filter (fun r => decide (r.cpu = q)))
      (l.filter (fun r => decide (r.cpu = q))) :=
    (List.mergeSort_perm l cpuDescLe).filter (fun r => decide (r.cpu = q))
  exact (h2.eq_of_length h3.length_eq.symm).symm

/-- C3: for every input text, the POSIX process listing is sorted
non-increasingly by `cpu`, and for every cpu value the records carrying
it appear in the output in the same relative order as in the input-order
record list `posixRecords` (stability of the sort; a sublist because the
final truncation may cut the tail). -/
theorem posix_sorted_stable (out : String) :
    List.Pairwise (fun a b : ProcessRecordPosix => b.cpu ≤ a.cpu) (parseProcessesPosix out) ∧
    ∀ q : ℚ, List.Sublist ((parseProcessesPosix out).filter (fun r => decide (r.cpu = q)))
      ((posixRecords out).filter (fun r => decide (r.cpu = q))) := by
  constructor
  · have hs := List.sorted_mergeSort cpuDescLe_trans cpuDescLe_total (posixRecords out)
    have ht : List.Sublist (parseProcessesPosix out) ((posixRecords out).mergeSort cpuDescLe) :=
      List.take_sublist 50 _
    exact (hs.sublist ht).imp fun h => by
      simpa only [cpuDescLe, decide_eq_true_eq] using h
  · intro q
    have h1 := (List.take_sublist 50 ((posixRecords out).mergeSort cpuDescLe)).filter
      (fun r => decide (r.cpu = q))
    rwa [mergeSort_filter_cpu] at h1

theorem posix_sorted_stable_witness :
    List.Pairwise (fun a b : ProcessRecordPosix => b.cpu ≤ a.cpu)
      (parseProcessesPosix "root 1 0.5 0.1 100 200 ? Ss Jan01 0:01 /sbin/init") :=
  (posix_sorted_stable "root 1 0.5 0.1 100 200 ? Ss Jan01 0:01 /sbin/init").1

/-- C6: on both platform rules, every record returned by the process
parser has a positive pid: records whose parsed pid defaulted to 0 or
came out negative are dropped by the pid filter. -/
theorem processes_pid_pos (out : String) :
    (∀ r ∈ parseProcessesWin out, 0 < r.pid) ∧
    (∀ r ∈ parseProcessesPosix out, 0 < r.pid) := by
  constructor
  · intro r hr
    have hr2 : r ∈ (winRawRecords out).filter (fun p => decide (0 < p.pid)) :=
      List.take_subset _ _ hr
    have h1 := List.of_mem_filter hr2
    simp only [decide_eq_true_eq] at h1
    exact h1
  · intro r hr
    have hr2 : r ∈ (posixRecords out).mergeSort cpuDescLe := List.take_subset _ _ hr
    have hr3 : r ∈ posixRecords out := (List.mergeSort_perm _ _).mem_iff.mp hr2
    have h1 := List.of_mem_filter hr3
    simp only [decide_eq_true_eq] at h1
    exact h1

theorem processes_pid_pos_witness :
    ({ name := "chrome.exe", pid := 1234, memory := "50,000 K", cpu := "N/A" } :
        ProcessRecordWin) ∈
      parseProcessesWin "\"chrome.exe\",\"1234\",\"Console\",\"1\",\"50,000 K\"" ∧
    (0 : Int) < ({ name := "chrome.exe", pid := 1234, memory := "50,000 K", cpu := "N/A" } :
        ProcessRecordWin).pid := by
  refine ⟨by decide, ?_⟩
  exact (processes_pid_pos "\"chrome.exe\",\"1234\",\"Console\",\"1\",\"50,000 K\"").1 _ (by decide)

/-- C7: on both platform rules, the process parser returns at most 50
records (the `slice(0, 50)` truncation). -/
theorem processes_le_50 (out : String) :
    (parseProcessesWin out).length ≤ 50 ∧ (parseProcessesPosix out).length ≤ 50 :=
  ⟨List.length_take_le 50 _, List.length_take_le 50 _⟩

theorem processes_le_50_witness :
    (parseProcessesWin "").length ≤ 50 ∧ (parseProcessesPosix "").length ≤ 50 :=
  processes_le_50 ""

/-- C8: for every input text, the records returned by the win32 process
rule form a sublist of the per-line records taken in input line order:
the pid filter and the truncation only remove records, and no sorting is
applied, so the relative order of the source lines is preserved. -/
theorem win_order_preserved (out : String) :
    List.Sublist (parseProcessesWin out) (winRawRecords out) :=
  (List.take_sublist 50 _).trans (List.filter_sublist _)

theorem win_order_preserved_witness :
    List.Sublist (parseProcessesWin "\"a.exe\",\"1\",\"Console\",\"1\",\"10 K\"")
      (winRawRecords "\"a.exe\",\"1\",\"Console\",\"1\",\"10 K\"") :=
  win_order_preserved "\"a.exe\",\"1\",\"Console\",\"1\",\"10 K\""

/-- C4: when the external command underlying `get-processes` or
`get-disk-usage` fails (spawn failure or non-zero exit, surfaced as the
caught error), the handler returns the empty list on every platform
rather than propagating the fault. -/
theorem handlers_error_empty (e : String) :
    getProcessesWin (Except.error e) = [] ∧ getProcessesPosix (Except.error e) = [] ∧
    getDiskUsageWin (Except.error e) = [] ∧ getDiskUsagePosix (Except.error e) = [] :=
  ⟨rfl, rfl, rfl, rfl⟩

theorem handlers_error_empty_witness :
    getProcessesWin (Except.error "spawn tasklist ENOENT") = [] ∧
    getProcessesPosix (Except.error "spawn tasklist ENOENT") = [] ∧
    getDiskUsageWin (Except.error "spawn tasklist ENOENT") = [] ∧
    getDiskUsagePosix (Except.error "spawn tasklist ENOENT") = [] :=
  handlers_error_empty "spawn tasklist ENOENT"

/-- C5: for every single-line, non-blank, non-header input of the win32
disk rule whose whitespace split yields the three fields `caption`,
`freeSpace`, `size` (free space preceding size), the parser returns
exactly the per-line record, and that record satisfies
`used = size - freeSpace` (i.e. `used = size - available`),
`usePercent = used/size*100` when `size > 0`, `usePercent = 0` when
`size = 0`, and `filesystem = mounted = caption`. -/
theorem diskWin_line_fields (line : String) (c f s : List Char)
    (hline : splitChar '\n' line.toList = [line.toList])
    (hblank : trimChars line.toList ≠ [])
    (hheader : containsSeq ("Caption".toList) line.toList = false)
    (hfields : splitWs (trimChars line.toList) = [c, f, s]) :
    parseDiskWin line = [diskWinLine line.toList] ∧
    (diskWinLine line.toList).used =
      (diskWinLine line.toList).size - (diskWinLine line.toList).available ∧
    (0 < (diskWinLine line.toList).size →
      (diskWinLine line.toList).usePercent =
        (((diskWinLine line.toList).used : Int) : ℚ) /
          (((diskWinLine line.toList).size : Int) : ℚ) * 100) ∧
    ((diskWinLine line.toList).size = 0 → (diskWinLine line.toList).usePercent = 0) ∧
    (diskWinLine line.toList).filesystem = String.mk c ∧
    (diskWinLine line.toList).mounted = String.mk c := by
  have hfields2 : splitWs (trimChars line.data) = [c, f, s] := hfields
  have hrec : diskWinLine line.toList =
      { filesystem := String.mk c
        size := jsOrZeroI (parseIntJs s)
        used := jsOrZeroI (parseIntJs s) - jsOrZeroI (parseIntJs f)
        available := jsOrZeroI (parseIntJs f)
        usePercent := if 0 < jsOrZeroI (parseIntJs s) then
          (((jsOrZeroI (parseIntJs s) - jsOrZeroI (parseIntJs f) : Int) : ℚ) /
            ((jsOrZeroI (parseIntJs s) : Int) : ℚ)) * 100 else 0
        mounted := String.mk c } := by
    simp [diskWinLine, hfields, hfields2]
  have hempty : (trimChars line.toList).isEmpty = false := by
    cases he : (trimChars line.toList).isEmpty
    · rfl
    · exact absurd (List.isEmpty_iff.mp he) hblank
  refine ⟨?_, ?_, ?_, ?_, ?_, ?_⟩
  · unfold parseDiskWin
    rw [hline]
    simp only [List.filter_cons, List.filter_nil, hempty, hheader, Bool.not_false,
      Bool.and_true, Bool.true_and, List.map_cons, List.map_nil]
    rw [if_pos]
    all_goals trivial
  · rw [hrec]
  · intro h
    rw [hrec] at h ⊢
    simp only at h ⊢
    rw [if_pos h]
  · intro h
    rw [hrec] at h ⊢
    simp only at h ⊢
    rw [h]
    norm_num
  · rw [hrec]
  · rw [hrec]

theorem diskWin_line_fields_witness :
    parseDiskWin "C: 5000 10000" = [diskWinLine ("C: 5000 10000".toList)] ∧
    (diskWinLine ("C: 5000 10000".toList)).used =
      (diskWinLine ("C: 5000 10000".toList)).size -
        (diskWinLine ("C: 5000 10000".toList)).available ∧
    (diskWinLine ("C: 5000 10000".toList)).filesystem = String.mk ("C:".toList) := by
  have h := diskWin_line_fields "C: 5000 10000" ("C:".toList) ("5000".toList) ("10000".toList)
    (by decide) (by decide) (by decide) (by decide)
  exact ⟨h.1, h.2.1, h.2.2.2.2.1⟩

/-- C1 (counterexample): on the single Windows CSV input line
`"chrome.exe","1234","Console","1","50,000 K"` the parser does not
produce a record whose cpu field is the string `"unavailable"`: the
source fixes that field to the literal `'N/A'`. -/
theorem winCsv_not_unavailable :
    ¬ ∃ r : ProcessRecordWin,
        parseProcessesWin "\"chrome.exe\",\"1234\",\"Console\",\"1\",\"50,000 K\"" = [r] ∧
        r.name = "chrome.exe" ∧ r.pid = 1234 ∧ r.memory = "50,000 K" ∧
        r.cpu = "unavailable" := by
  rintro ⟨r, hr, -, -, -, hcpu⟩
  have he : parseProcessesWin "\"chrome.exe\",\"1234\",\"Console\",\"1\",\"50,000 K\"" =
      [{ name := "chrome.exe", pid := 1234, memory := "50,000 K", cpu := "N/A" }] := by
    decide
  rw [he] at hr
  injection hr with h1 h2
  rw [← h1] at hcpu
  exact absurd hcpu (by decide)

/-- C1 (amended): parsing the single CSV input line
`"chrome.exe","1234","Console","1","50,000 K"` with the Windows process
rule yields exactly one record with name `"chrome.exe"`, pid 1234,
memory `"50,000 K"`, and cpu equal to the sentinel string `"N/A"`. -/
theorem winCsv_parse :
    parseProcessesWin "\"chrome.exe\",\"1234\",\"Console\",\"1\",\"50,000 K\"" =
      [{ name := "chrome.exe", pid := 1234, memory := "50,000 K", cpu := "N/A" }] := by
  decide
